import Mathlib

/-!
Shallow embedding of `core/src/library/config.rs` from the spacedrive
repository: the `LibraryConfig` document type, its sanitised view, and the
`Migrate` implementation (`migrate`) that moves a library config document and
its correlated database rows from one schema version to the next.

External collaborators (the migrator driver, uuid helpers, the p2p identity
generator, the prisma client) are not in `src/`; where a claim depends on
them they are modelled from the spec and marked `Modelled from the spec:`.
-/

namespace Spacedrive

/-- JSON values, modelling `serde_json::Value` as far as the migration code
touches it (numbers that occur are integral). -/
inductive JValue where
  | null : JValue
  | bool (b : Bool) : JValue
  | num (n : Int) : JValue
  | str (s : String) : JValue
  | arr (xs : List JValue) : JValue
  deriving Repr

/-- The migration document: `serde_json::Map<String, Value>`, modelled as an
association list with insert-or-replace semantics. -/
def JsonMap : Type := List (String × JValue)

/-- Lookup of a key in the document map. -/
def lookupKey (m : JsonMap) (k : String) : Option JValue :=
  match m with
  | [] => none
  | p :: rest => if p.1 = k then some p.2 else lookupKey rest k

/-- Insert of `serde_json::Map`: replace the value if the key is present,
otherwise add the entry. -/
def insertKey (m : JsonMap) (k : String) (v : JValue) : JsonMap :=
  match m with
  | [] => [(k, v)]
  | p :: rest => if p.1 = k then (k, v) :: rest else p :: insertKey rest k v

/-- Modelled from the spec: `MigratorError` lives in `util/migrator` (not in
`src/`). The spec's error kinds are MissingDefault (`configFileMissing`),
StoreOperationFailed (`database`, carrying the index of the failed store
call), and InvariantViolated (`custom`, produced with a descriptive
message). -/
inductive MigratorError where
  | configFileMissing (path : String) : MigratorError
  | database (callIdx : Nat) : MigratorError
  | custom (msg : String) : MigratorError
  deriving DecidableEq, Repr

/-- Outcome of one `migrate` call. `fault` models the `unreachable!` panic
(a software fault, not a recoverable error value). `fuelOut` is a modelling
artifact of the fuel-bounded backfill loop; it is proved unreachable because
the fuel is chosen above the loop's iteration count. -/
inductive Outcome where
  | success : Outcome
  | failed (e : MigratorError) : Outcome
  | fault (msg : String) : Outcome
  | fuelOut : Outcome
  deriving DecidableEq, Repr

/-- A UUID, identified with its 128-bit value (`Uuid::from_u128` /
`Uuid::as_u128`). -/
structure Uuid where
  val : Nat
  deriving DecidableEq, Repr

/-- Rust `Uuid::from_u128`. -/
def Uuid.fromU128 (n : Nat) : Uuid := ⟨n % 2 ^ 128⟩

/-- Big-endian byte encoding of `n` on `w` bytes (`to_be_bytes`). -/
def beBytes (w : Nat) (n : Nat) : List Nat :=
  (List.range w).map fun i => n / 256 ^ (w - 1 - i) % 256

/-- Modelled from the spec: `util::db::uuid_to_bytes` (not in `src/`) is
`uuid.as_bytes().to_vec()`, the 16-byte big-endian encoding of the 128-bit
value. -/
def uuid_to_bytes (u : Uuid) : List Nat := beBytes 16 (u.val % 2 ^ 128)

/-- One lowercase hexadecimal digit. -/
def hexDigitChar (n : Nat) : Char :=
  if n < 10 then Char.ofNat (48 + n) else Char.ofNat (97 + (n - 10))

/-- Two lowercase hex digits of one byte. -/
def byteToHex (b : Nat) : List Char :=
  [hexDigitChar (b / 16 % 16), hexDigitChar (b % 16)]

/-- Lowercase hex string of a byte list. -/
def bytesToHex (bs : List Nat) : String :=
  String.mk (bs.map byteToHex).flatten

/-- Rust `Uuid::to_string`: hyphenated lowercase hex, groups of
4-2-2-2-6 bytes. -/
def Uuid.toText (u : Uuid) : String :=
  let bs := uuid_to_bytes u
  bytesToHex (bs.take 4) ++ "-" ++ bytesToHex ((bs.drop 4).take 2) ++ "-" ++
    bytesToHex ((bs.drop 6).take 2) ++ "-" ++ bytesToHex ((bs.drop 8).take 2) ++ "-" ++
    bytesToHex (bs.drop 10)

/-- Modelled from the spec: `sd_p2p::PeerId` is opaque; the migration only
uses its string form (`peer_id.to_string()`). -/
structure PeerId where
  text : String
  deriving DecidableEq, Repr

/-- The migration context `(node_id, peer_id, db)` minus the database handle
(threaded separately). `freshIdentity` is Modelled from the spec: the
external identity generator "supplies a freshly generated cryptographic
identity value on demand" (`Identity::new().to_bytes()`), treated as an
opaque byte blob supplied by the environment. -/
structure Ctx where
  node_id : Uuid
  peer_id : PeerId
  freshIdentity : List Nat

/-- The JSON value the version-2 step inserts:
`Value::Array(identity.to_bytes().map(into))`. -/
def identityValue (ctx : Ctx) : JValue :=
  .arr (ctx.freshIdentity.map fun b => .num (Int.ofNat b))

/-- LibraryConfig (the strictly-typed document). `LibraryName` is a
validated-string newtype defined elsewhere; modelled as `String`. -/
structure LibraryConfig where
  name : String
  description : Option String
  identity : List Nat
  node_id : Uuid
  deriving DecidableEq, Repr

/-- The frontend-facing sanitised view of a library config. -/
structure SanitisedLibraryConfig where
  name : String
  description : Option String
  node_id : Uuid
  deriving DecidableEq, Repr

/-- `impl From<LibraryConfig> for SanitisedLibraryConfig`. -/
def SanitisedLibraryConfig.fromLibraryConfig (config : LibraryConfig) :
    SanitisedLibraryConfig :=
  { name := config.name
    description := config.description
    node_id := config.node_id }

/-- An `indexer_rule` row, restricted to the columns the migration touches:
`name` (nullable) and `pub_id`. -/
structure IndexerRuleRow where
  name : Option String
  pub_id : List Nat
  deriving DecidableEq, Repr

/-- A `node` row, restricted to the columns the migration touches. -/
structure NodeRow where
  pub_id : List Nat
  node_peer_id : Option String
  deriving DecidableEq, Repr

/-- A `file_path` row, restricted to the columns the migration touches:
`id`, the legacy string column `size_in_bytes`, and the new byte column
`size_in_bytes_bytes`. -/
structure FilePathRow where
  id : Int
  size_in_bytes : Option String
  size_in_bytes_bytes : Option (List Nat)
  deriving DecidableEq, Repr

/-- The external relational store: the three tables the migration touches. -/
structure Store where
  indexer_rules : List IndexerRuleRow
  nodes : List NodeRow
  file_paths : List FilePathRow
  deriving DecidableEq, Repr

/-- Number of `file_path` rows whose legacy `size_in_bytes` is non-null, the
backfill's "needs transformation" predicate. -/
def countMatching (s : Store) : Nat :=
  s.file_paths.countP fun r => r.size_in_bytes.isSome

/-- `indexer_rule().update_many(name equals Some nm, pub_id set pid)`. -/
def updateManyRuleName (s : Store) (nm : String) (pid : List Nat) : Store :=
  { s with indexer_rules := s.indexer_rules.map fun r =>
      if r.name = some nm then { r with pub_id := pid } else r }

/-- Sequential application of the version-1 batch's update statements. -/
def applyRuleBatch (s : Store) (stmts : List (String × List Nat)) : Store :=
  stmts.foldl (fun s p => updateManyRuleName s p.1 p.2) s

/-- The four rule names of the version-1 step, in source order. -/
def v1Rules : List String :=
  ["No OS protected", "No Hidden", "No Git", "Only Images"]

/-- The version-1 batch: for the i-th rule name, an update-many statement
matching that name and setting `pub_id` to
`uuid_to_bytes(Uuid::from_u128(i))`. -/
def v1Statements : List (String × List Nat) :=
  v1Rules.enum.map fun p => (p.2, uuid_to_bytes (Uuid.fromU128 p.1))

/-- `node().update_many(vec![], [pub_id set, node_peer_id set])`: sets the
two fields on every node row. -/
def updateAllNodes (s : Store) (pid : List Nat) (peer : Option String) : Store :=
  { s with nodes := s.nodes.map fun n =>
      { n with pub_id := pid, node_peer_id := peer } }

/-- A fetched page row, as narrowed by
`select(file_path::select!({ id size_in_bytes }))`. -/
structure PagedRow where
  id : Int
  size_in_bytes : Option String
  deriving DecidableEq, Repr

/-- The rows backing one fetched page:
`find_many([not(size_in_bytes equals None)]).take(500)`. -/
def pageRows (s : Store) : List FilePathRow :=
  (s.file_paths.filter fun r => r.size_in_bytes.isSome).take 500

/-- One fetched page, projected to the selected columns. -/
def pageOf (s : Store) : List PagedRow :=
  (pageRows s).map fun r => ⟨r.id, r.size_in_bytes⟩

/-- Rust `str::parse::<u64>()`: optional leading `+`, then one or more ASCII
digits, rejecting values that overflow 64 bits. -/
def parseU64 (s : String) : Option Nat :=
  let cs := match s.data with
    | '+' :: rest => rest
    | cs => cs
  if cs.isEmpty then none
  else if cs.all fun c => c.isDigit then
    let n := cs.foldl (fun acc c => acc * 10 + (c.toNat - 48)) 0
    if n < 2 ^ 64 then some n else none
  else none

/-- One staged row update of the version-5 batch: target row id and the value
written to `size_in_bytes_bytes` (the update always also clears
`size_in_bytes` to null). -/
structure FilePathUpdate where
  id : Int
  size_in_bytes_bytes : Option (List Nat)
  deriving DecidableEq, Repr

/-- Per-row staging of the version-5 backfill (`filter_map` body):
`maybe_missing` drops a row whose selected `size_in_bytes` is null (logged);
otherwise the legacy string is parsed as `u64` — on success the update
carries the 8-byte big-endian encoding, on failure (logged) it carries null —
and either way an update for the row is staged. -/
def stageRow (row : PagedRow) : Option FilePathUpdate :=
  match row.size_in_bytes with
  | none => none
  | some sz =>
    let size := match parseU64 sz with
      | some n => some (beBytes 8 n)
      | none => none
    some ⟨row.id, size⟩

/-- Effect of one staged update on one row:
`file_path().update(id equals u.id, [size_in_bytes_bytes set u.value,
size_in_bytes set None])`. -/
def rowStep (u : FilePathUpdate) (r : FilePathRow) : FilePathRow :=
  if r.id = u.id then
    { r with size_in_bytes_bytes := u.size_in_bytes_bytes, size_in_bytes := none }
  else r

/-- One staged update applied to the store. -/
def applyFilePathUpdate (s : Store) (u : FilePathUpdate) : Store :=
  { s with file_paths := s.file_paths.map (rowStep u) }

/-- The version-5 page batch: all staged updates applied in order. -/
def applyFilePathBatch (s : Store) (us : List FilePathUpdate) : Store :=
  us.foldl applyFilePathUpdate s

/-- The net effect of a list of staged updates on a single row (proof
device: `applyFilePathBatch` acts row-wise as this fold). -/
def rowAfter (us : List FilePathUpdate) (r : FilePathRow) : FilePathRow :=
  us.foldl (fun r u => rowStep u r) r

/-- The staged updates of one page. -/
def pageUpdates (s : Store) : List FilePathUpdate :=
  (pageOf s).filterMap stageRow

/-- The database handle: current store contents plus a failure schedule for
the store calls the migration issues. Call number `calls` fails iff
`fail calls` is `true`; a failed call leaves the store unchanged and is
surfaced as `MigratorError.database` (a store call error propagated by
`?`). -/
structure Db where
  store : Store
  fail : Nat → Bool
  calls : Nat

/-- The version-5 backfill loop, fuel-bounded (the fuel chosen by `backfill`
is proved sufficient): repeatedly fetch a page of at most 500 still-legacy
rows, stop successfully on an empty page, otherwise stage per-row updates and
issue them as one batch; a failed fetch or batch call aborts the whole step
with that error. Returns (outcome, final db, number of fetch calls made). -/
def backfillAux : Nat → Db → Nat → Outcome × Db × Nat
  | 0, db, fetches => (.fuelOut, db, fetches)
  | fuel + 1, db, fetches =>
    if db.fail db.calls then (.failed (.database db.calls), db, fetches)
    else
      let db1 : Db := ⟨db.store, db.fail, db.calls + 1⟩
      let page := pageOf db1.store
      if page.isEmpty then (.success, db1, fetches + 1)
      else if db1.fail db1.calls then (.failed (.database db1.calls), db1, fetches + 1)
      else
        backfillAux fuel
          ⟨applyFilePathBatch db1.store (page.filterMap stageRow), db1.fail, db1.calls + 1⟩
          (fetches + 1)

/-- The version-5 backfill. The loop clears at least one matching row per
completed iteration, so `countMatching + 1` units of fuel are enough; the
`fuelOut` outcome is proved unreachable. -/
def backfill (db : Db) : Outcome × Db × Nat :=
  backfillAux (countMatching db.store + 1) db 0

/-- `Migrate::CURRENT_VERSION` for `LibraryConfig`. -/
def CURRENT_VERSION : Nat := 5

/-- Result of one `migrate` call: outcome, the document map (reflecting the
`&mut` parameter, also on failure), the database handle (store plus calls
consumed), and — for the version-5 step — the number of page fetches. -/
structure MigOut where
  outcome : Outcome
  config : JsonMap
  db : Db
  fetches : Nat

/-- `Migrate::migrate for LibraryConfig`: the per-target-version step table.
Version 0 and 4 do nothing; version 1 issues one batch of four rule
update-many statements; version 2 inserts a freshly generated `identity`
into the document; version 3 checks that exactly one node row exists
(otherwise fails with the source's message), rewrites all node rows and
inserts `node_id` into the document; version 5 runs the backfill; any higher
version hits the `unreachable!` branch. -/
def migrate (to_version : Nat) (config : JsonMap) (ctx : Ctx) (db : Db) : MigOut :=
  match to_version with
  | 0 => ⟨.success, config, db, 0⟩
  | 1 =>
    if db.fail db.calls then ⟨.failed (.database db.calls), config, db, 0⟩
    else ⟨.success, config, ⟨applyRuleBatch db.store v1Statements, db.fail, db.calls + 1⟩, 0⟩
  | 2 => ⟨.success, insertKey config "identity" (identityValue ctx), db, 0⟩
  | 3 =>
    if db.fail db.calls then ⟨.failed (.database db.calls), config, db, 0⟩
    else
      let db1 : Db := ⟨db.store, db.fail, db.calls + 1⟩
      if db1.store.nodes.length ≠ 1 then
        ⟨.failed (.custom "Ummm, there are too many nodes in the database, this should not happen!"),
          config, db1, 0⟩
      else if db1.fail db1.calls then ⟨.failed (.database db1.calls), config, db1, 0⟩
      else
        ⟨.success, insertKey config "node_id" (.str ctx.node_id.toText),
          ⟨updateAllNodes db1.store (uuid_to_bytes ctx.node_id) (some ctx.peer_id.text),
            db1.fail, db1.calls + 1⟩, 0⟩
  | 4 => ⟨.success, config, db, 0⟩
  | 5 =>
    let r := backfill db
    ⟨r.1, config, r.2.1, r.2.2⟩
  | v + 6 =>
    ⟨.fault ("Missing migration for library version " ++ toString (v + 6)), config, db, 0⟩

/-- Modelled from the spec: the MigrationEngine driver (in `util/migrator`,
not in `src/`) invokes the step for every version in `(stored, target]` in
strictly increasing order, short-circuiting on the first failure; on full
success the document's own `version` field is advanced to the target by the
caller after the run, not per step. -/
def migrateSteps (vs : List Nat) (config : JsonMap) (ctx : Ctx) (db : Db) : MigOut :=
  match vs with
  | [] => ⟨.success, config, db, 0⟩
  | v :: rest =>
    let out := migrate v config ctx db
    match out.outcome with
    | .success => migrateSteps rest out.config ctx out.db
    | _ => out

/-- Modelled from the spec: a full driver run from stored version `stored`
up to `target`, advancing the document's `version` field on success. -/
def runMigrations (stored target : Nat) (config : JsonMap) (ctx : Ctx) (db : Db) : MigOut :=
  let out := migrateSteps (List.range' (stored + 1) (target - stored)) config ctx db
  match out.outcome with
  | .success => { out with config := insertKey out.config "version" (.num (Int.ofNat target)) }
  | _ => out

/-- An all-success failure schedule: every store call succeeds. -/
def okSched : Nat → Bool := fun _ => false

/-- A sample migration context. -/
def ctx0 : Ctx := ⟨⟨0⟩, ⟨"12D3KooW"⟩, List.replicate 32 0⟩

/-- A store holding exactly one node record and nothing else. -/
def store1node : Store := ⟨[], [⟨[], none⟩], []⟩

/-- A sample database handle over `store1node` with no failures. -/
def db0 : Db := ⟨store1node, okSched, 0⟩

/-- A store with a single legacy `file_path` row (`R = 1`). -/
def dbOneRow : Db := ⟨⟨[], [], [⟨1, some "1024", none⟩]⟩, okSched, 0⟩

/-- The store of the mixed-page example: one parseable legacy size and one
malformed one. -/
def dbMixed : Db := ⟨⟨[], [], [⟨1, some "1024", none⟩, ⟨2, some "abc", none⟩]⟩, okSched, 0⟩

/-- A database handle whose second store call (the first page's batch)
fails. -/
def dbBatchFails : Db := ⟨⟨[], [], [⟨1, some "1024", none⟩]⟩, fun k => k == 1, 0⟩

/-- A database handle over a completely empty store. -/
def dbEmpty : Db := ⟨⟨[], [], []⟩, okSched, 0⟩

theorem lookupKey_insertKey_self (m : JsonMap) (k : String) (v : JValue) :
    lookupKey (insertKey m k v) k = some v := by
  induction m with
  | nil => simp [insertKey, lookupKey]
  | cons p rest ih =>
    by_cases h : p.1 = k
    · simp [insertKey, lookupKey, h]
    · simp [insertKey, lookupKey, h, ih]

theorem lookupKey_insertKey_ne (m : JsonMap) (kw k : String) (v : JValue)
    (h : kw ≠ k) : lookupKey (insertKey m kw v) k = lookupKey m k := by
  induction m with
  | nil => simp [insertKey, lookupKey, h]
  | cons p rest ih =>
    by_cases hp : p.1 = kw
    · simp [insertKey, lookupKey, hp, h]
    · simp only [insertKey, hp, if_false, lookupKey, ih]

/-- Claim C9: the sanitised view depends only on `name`, `description` and
`node_id`; two library configs that agree on those but hold arbitrarily
different `identity` bytes sanitise to equal results, so the P2P identity
never reaches the frontend-facing type. -/
theorem c9_sanitised_independent (c1 c2 : LibraryConfig)
    (hn : c1.name = c2.name) (hd : c1.description = c2.description)
    (hid : c1.node_id = c2.node_id) :
    SanitisedLibraryConfig.fromLibraryConfig c1 =
      SanitisedLibraryConfig.fromLibraryConfig c2 := by
  simp [SanitisedLibraryConfig.fromLibraryConfig, hn, hd, hid]

theorem c9_witness :
    SanitisedLibraryConfig.fromLibraryConfig ⟨"Library", none, [0, 1, 2], ⟨7⟩⟩ =
      SanitisedLibraryConfig.fromLibraryConfig ⟨"Library", none, [9, 9, 9, 9], ⟨7⟩⟩ :=
  c9_sanitised_independent ⟨"Library", none, [0, 1, 2], ⟨7⟩⟩
    ⟨"Library", none, [9, 9, 9, 9], ⟨7⟩⟩ rfl rfl rfl

/-- Claim C10: the version-2 step unconditionally overwrites the document's
`identity` field: for every input document — including one that already holds
an `identity` key — the key afterwards holds the freshly generated identity
bytes. -/
theorem c10_identity_overwritten (config : JsonMap) (ctx : Ctx) (db : Db) :
    (migrate 2 config ctx db).outcome = .success ∧
    lookupKey (migrate 2 config ctx db).config "identity" = some (identityValue ctx) :=
  ⟨rfl, by simp [migrate, lookupKey_insertKey_self]⟩

theorem backfillAux_ne_fault (fuel : Nat) : ∀ (db : Db) (f0 : Nat) (msg : String),
    (backfillAux fuel db f0).1 ≠ .fault msg := by
  induction fuel with
  | zero => intro db f0 msg; simp [backfillAux]
  | succ fuel ih =>
    intro db f0 msg
    simp only [backfillAux]
    by_cases hf : db.fail db.calls = true
    · simp [hf]
    · simp only [hf, if_false, Bool.false_eq_true]
      by_cases hp : (pageOf db.store).isEmpty = true
      · simp [hp]
      · simp only [hp, if_false, Bool.false_eq_true]
        by_cases hb : db.fail (db.calls + 1) = true
        · simp [hb]
        · simp only [hb, if_false, Bool.false_eq_true]
          exact ih _ _ msg

/-- Claim C4: the step table is dense over `[0, CURRENT_VERSION]` with
`CURRENT_VERSION = 5`: every version up to 5 has a branch that can return
normally (and never hits the unreachable branch), while every version above 5
hits the loud `unreachable!` software-fault branch rather than returning a
recoverable error value. -/
theorem c4_dense_step_table :
    (∀ v, v ≤ CURRENT_VERSION →
      ∃ config ctx db, (migrate v config ctx db).outcome = .success) ∧
    (∀ v, v ≤ CURRENT_VERSION → ∀ config ctx db msg,
      (migrate v config ctx db).outcome ≠ .fault msg) ∧
    (∀ v, CURRENT_VERSION < v → ∀ config ctx db,
      (migrate v config ctx db).outcome =
        .fault ("Missing migration for library version " ++ toString v)) := by
  refine ⟨?_, ?_, ?_⟩
  · intro v hv
    simp only [CURRENT_VERSION] at hv
    interval_cases v
    · exact ⟨[], ctx0, db0, rfl⟩
    · exact ⟨[], ctx0, db0, by decide⟩
    · exact ⟨[], ctx0, db0, rfl⟩
    · exact ⟨[], ctx0, db0, by decide⟩
    · exact ⟨[], ctx0, db0, rfl⟩
    · exact ⟨[], ctx0, db0, by decide⟩
  · intro v hv config ctx db msg
    simp only [CURRENT_VERSION] at hv
    interval_cases v
    · simp [migrate]
    · simp only [migrate]
      by_cases h : db.fail db.calls = true <;> simp [h]
    · simp [migrate]
    · simp only [migrate]
      by_cases h : db.fail db.calls = true
      · simp [h]
      · by_cases h1 : db.store.nodes.length = 1
        · by_cases h2 : db.fail (db.calls + 1) = true <;> simp [h, h1, h2]
        · simp [h, h1]
    · simp [migrate]
    · simpa [migrate, backfill] using backfillAux_ne_fault _ db 0 msg
  · intro v hv config ctx db
    simp only [CURRENT_VERSION] at hv
    obtain ⟨w, rfl⟩ : ∃ w, v = w + 6 := ⟨v - 6, by omega⟩
    rfl

theorem c4_witness :
    5 < 7 ∧
    (migrate 7 [] ctx0 db0).outcome =
      .fault ("Missing migration for library version " ++ toString 7) :=
  ⟨by omega, c4_dense_step_table.2.2 7 (by decide) [] ctx0 db0⟩

/-- Claim C7: the version-1 step issues exactly one batch (one store call)
containing exactly four update-many statements — the i-th matching
indexer-rule rows named "No OS protected", "No Hidden", "No Git",
"Only Images" in that order, setting their `pub_id` to the byte encoding of
the UUID with 128-bit value i — and leaves the document map unchanged. -/
theorem c7_v1_batch (config : JsonMap) (ctx : Ctx) (db : Db)
    (h : db.fail db.calls = false) :
    v1Statements =
      [("No OS protected", uuid_to_bytes (Uuid.fromU128 0)),
       ("No Hidden", uuid_to_bytes (Uuid.fromU128 1)),
       ("No Git", uuid_to_bytes (Uuid.fromU128 2)),
       ("Only Images", uuid_to_bytes (Uuid.fromU128 3))] ∧
    v1Statements.length = 4 ∧
    migrate 1 config ctx db =
      ⟨.success, config, ⟨applyRuleBatch db.store v1Statements, db.fail, db.calls + 1⟩, 0⟩ := by
  refine ⟨rfl, rfl, ?_⟩
  simp [migrate, h]

theorem c7_witness :
    db0.fail db0.calls = false ∧
    migrate 1 [] ctx0 db0 =
      ⟨.success, [], ⟨applyRuleBatch db0.store v1Statements, db0.fail, db0.calls + 1⟩, 0⟩ :=
  ⟨rfl, (c7_v1_batch [] ctx0 db0 rfl).2.2⟩

/-- Claim C5: in the version-5 backfill a failing page fetch, or a failing
per-page batch call, aborts the whole step immediately: `migrate 5` returns
exactly that store failure, fetches no further pages, and leaves the
document untouched. -/
theorem c5_failure_aborts (config : JsonMap) (ctx : Ctx) (db : Db) :
    (db.fail db.calls = true →
      migrate 5 config ctx db = ⟨.failed (.database db.calls), config, db, 0⟩) ∧
    (db.fail db.calls = false → (pageOf db.store).isEmpty = false →
      db.fail (db.calls + 1) = true →
      migrate 5 config ctx db =
        ⟨.failed (.database (db.calls + 1)), config,
          ⟨db.store, db.fail, db.calls + 1⟩, 1⟩) := by
  constructor
  · intro hf
    simp [migrate, backfill, backfillAux, hf]
  · intro hf hp hb
    simp [migrate, backfill, backfillAux, hf, hp, hb]

theorem c5_witness :
    dbBatchFails.fail (dbBatchFails.calls + 1) = true ∧
    migrate 5 [] ctx0 dbBatchFails =
      ⟨.failed (.database (dbBatchFails.calls + 1)), [],
        ⟨dbBatchFails.store, dbBatchFails.fail, dbBatchFails.calls + 1⟩, 1⟩ :=
  ⟨rfl, (c5_failure_aborts [] ctx0 dbBatchFails).2 rfl rfl rfl⟩

/-- Claim C2: with exactly one node record the version-3 step succeeds,
setting that record's `pub_id` to the context node id's bytes and its
`node_peer_id` to the peer id's string form, and inserting the document field
`node_id` with the node id's string form; with zero or two-or-more node
records it fails with the InvariantViolated-class error (`Custom`, with the
source's message) and leaves both the store and the document unmodified. -/
theorem c2_node_step (config : JsonMap) (ctx : Ctx) (db : Db)
    (h0 : db.fail db.calls = false) (h1 : db.fail (db.calls + 1) = false) :
    (db.store.nodes.length = 1 →
      migrate 3 config ctx db =
        ⟨.success, insertKey config "node_id" (.str ctx.node_id.toText),
          ⟨{ db.store with nodes := db.store.nodes.map fun n =>
              { n with pub_id := uuid_to_bytes ctx.node_id,
                       node_peer_id := some ctx.peer_id.text } },
            db.fail, db.calls + 2⟩, 0⟩) ∧
    (db.store.nodes.length ≠ 1 →
      migrate 3 config ctx db =
        ⟨.failed (.custom
            "Ummm, there are too many nodes in the database, this should not happen!"),
          config, ⟨db.store, db.fail, db.calls + 1⟩, 0⟩) := by
  constructor
  · intro hn
    simp only [migrate, h0, Bool.false_eq_true, if_false, hn, ne_eq,
      not_true_eq_false, h1]
    simp [updateAllNodes]
  · intro hn
    simp [migrate, h0, hn]

theorem c2_witness :
    db0.store.nodes.length = 1 ∧
    migrate 3 [] ctx0 db0 =
      ⟨.success, insertKey [] "node_id" (.str ctx0.node_id.toText),
        ⟨{ db0.store with nodes := db0.store.nodes.map fun n =>
            { n with pub_id := uuid_to_bytes ctx0.node_id,
                     node_peer_id := some ctx0.peer_id.text } },
          db0.fail, db0.calls + 2⟩, 0⟩ :=
  ⟨rfl, (c2_node_step [] ctx0 db0 rfl rfl).1 rfl⟩

/-- Claim C6: for every target version in `[0, 5]` and every input document,
`migrate` never touches the document's `version` field, and the only keys it
ever writes are `identity` (version 2) and `node_id` (version 3): every other
key reads back unchanged, and versions other than 2 and 3 leave the document
entirely unchanged. -/
theorem c6_version_frame (v : Nat) (hv : v ≤ CURRENT_VERSION)
    (config : JsonMap) (ctx : Ctx) (db : Db) :
    (∀ k, k ≠ "identity" → k ≠ "node_id" →
      lookupKey (migrate v config ctx db).config k = lookupKey config k) ∧
    lookupKey (migrate v config ctx db).config "version" = lookupKey config "version" ∧
    (v ≠ 2 → v ≠ 3 → (migrate v config ctx db).config = config) := by
  have main : ∀ k, k ≠ "identity" → k ≠ "node_id" →
      lookupKey (migrate v config ctx db).config k = lookupKey config k := by
    intro k hk1 hk2
    simp only [CURRENT_VERSION] at hv
    interval_cases v
    · rfl
    · simp only [migrate]
      by_cases h : db.fail db.calls = true <;> simp [h]
    · simp [migrate, lookupKey_insertKey_ne _ _ _ _ (Ne.symm hk1)]
    · simp only [migrate]
      by_cases h : db.fail db.calls = true
      · simp [h]
      · by_cases hn : db.store.nodes.length = 1
        · by_cases h2 : db.fail (db.calls + 1) = true
          · simp [h, hn, h2]
          · simp [h, hn, h2, lookupKey_insertKey_ne _ _ _ _ (Ne.symm hk2)]
        · simp [h, hn]
    · rfl
    · rfl
  have frame : v ≠ 2 → v ≠ 3 → (migrate v config ctx db).config = config := by
    intro h2 h3
    simp only [CURRENT_VERSION] at hv
    interval_cases v
    · rfl
    · simp only [migrate]
      by_cases h : db.fail db.calls = true <;> simp [h]
    · exact absurd rfl h2
    · exact absurd rfl h3
    · rfl
    · rfl
  exact ⟨main, main "version" (by decide) (by decide), frame⟩

theorem c6_witness :
    2 ≤ CURRENT_VERSION ∧
    lookupKey (migrate 2 [("version", .num 0)] ctx0 db0).config "version" =
      lookupKey [("version", JValue.num 0)] "version" :=
  ⟨by decide, (c6_version_frame 2 (by decide) [("version", .num 0)] ctx0 db0).2.1⟩

theorem rowAfter_cons (u : FilePathUpdate) (us : List FilePathUpdate) (r : FilePathRow) :
    rowAfter (u :: us) r = rowAfter us (rowStep u r) := rfl

theorem rowStep_of_ne (u : FilePathUpdate) (r : FilePathRow) (h : ¬ r.id = u.id) :
    rowStep u r = r := by
  simp [rowStep, h]

theorem rowAfter_of_forall_ne (us : List FilePathUpdate) (r : FilePathRow)
    (h : ∀ u ∈ us, ¬ r.id = u.id) : rowAfter us r = r := by
  induction us with
  | nil => rfl
  | cons u us ih =>
    rw [rowAfter_cons, rowStep_of_ne u r (h u (List.mem_cons_self u us))]
    exact ih fun u hu => h u (List.mem_cons_of_mem _ hu)

theorem rowStep_size_none (u : FilePathUpdate) (r : FilePathRow)
    (h : r.size_in_bytes = none) : (rowStep u r).size_in_bytes = none := by
  unfold rowStep
  split <;> simp [h]

theorem rowAfter_size_none (us : List FilePathUpdate) (r : FilePathRow)
    (h : r.size_in_bytes = none) : (rowAfter us r).size_in_bytes = none := by
  induction us generalizing r with
  | nil => exact h
  | cons u us ih => rw [rowAfter_cons]; exact ih _ (rowStep_size_none u r h)

theorem rowAfter_size_of_mem (us : List FilePathUpdate) (r : FilePathRow)
    (h : ∃ u ∈ us, u.id = r.id) : (rowAfter us r).size_in_bytes = none := by
  induction us generalizing r with
  | nil => simp at h
  | cons u us ih =>
    rw [rowAfter_cons]
    by_cases hid : r.id = u.id
    · exact rowAfter_size_none us _ (by simp [rowStep, hid])
    · rcases h with ⟨w, hw, hwid⟩
      rcases List.mem_cons.mp hw with h1 | h1
      · exact absurd (h1 ▸ hwid).symm hid
      · rw [rowStep_of_ne u r hid]
        exact ih r ⟨w, h1, hwid⟩

theorem rowAfter_isSome (us : List FilePathUpdate) (r : FilePathRow) :
    ((rowAfter us r).size_in_bytes.isSome = true) ↔
      (r.size_in_bytes.isSome = true ∧ ¬ ∃ u ∈ us, u.id = r.id) := by
  by_cases h : ∃ u ∈ us, u.id = r.id
  · simp [rowAfter_size_of_mem us r h, h]
  · have hne : ∀ u ∈ us, ¬ r.id = u.id := by
      intro u hu he
      exact h ⟨u, hu, he.symm⟩
    rw [rowAfter_of_forall_ne us r hne]
    simp [h]

theorem applyFilePathBatch_file_paths (s : Store) (us : List FilePathUpdate) :
    (applyFilePathBatch s us).file_paths = s.file_paths.map (rowAfter us) := by
  induction us generalizing s with
  | nil =>
    show s.file_paths = s.file_paths.map (rowAfter [])
    rw [show rowAfter [] = (id : FilePathRow → FilePathRow) from rfl, List.map_id]
  | cons u us ih =>
    show (applyFilePathBatch (applyFilePathUpdate s u) us).file_paths = _
    rw [ih, applyFilePathUpdate, List.map_map]
    rfl

theorem countP_split {α : Type} (p q : α → Bool) (l : List α) :
    l.countP p =
      l.countP (fun a => p a && q a) + l.countP (fun a => p a && !q a) := by
  induction l with
  | nil => rfl
  | cons x xs ih =>
    by_cases hp : p x = true <;> by_cases hq : q x = true <;>
      simp [List.countP_cons, hp, hq, ih] <;> omega

theorem countMatching_applyBatch (s : Store) (us : List FilePathUpdate) :
    countMatching (applyFilePathBatch s us) =
      s.file_paths.countP fun r =>
        r.size_in_bytes.isSome && !(us.any fun u => u.id == r.id) := by
  unfold countMatching
  rw [applyFilePathBatch_file_paths, List.countP_map]
  apply List.countP_congr
  intro r _
  rw [Function.comp_apply, rowAfter_isSome us r]
  simp [List.any_eq_true]

theorem pageRows_sublist (s : Store) : (pageRows s).Sublist s.file_paths :=
  (List.take_sublist _ _).trans (List.filter_sublist _)

theorem mem_pageRows_isSome {s : Store} {r : FilePathRow} (h : r ∈ pageRows s) :
    r.size_in_bytes.isSome = true :=
  (List.mem_filter.mp (List.take_subset _ _ h)).2

theorem pageRows_length (s : Store) :
    (pageRows s).length = min 500 (countMatching s) := by
  unfold pageRows countMatching
  rw [List.length_take, List.countP_eq_length_filter]

theorem stageRow_of_isSome {row : PagedRow} (h : row.size_in_bytes.isSome = true) :
    ∃ u, stageRow row = some u ∧ u.id = row.id := by
  cases hsz : row.size_in_bytes with
  | none => rw [hsz] at h; cases h
  | some sz =>
    refine ⟨⟨row.id, (parseU64 sz).map (beBytes 8)⟩, ?_, rfl⟩
    simp only [stageRow, hsz]
    cases hp : parseU64 sz <;> simp [hp]

theorem pageUpdates_covers {s : Store} {r : FilePathRow} (h : r ∈ pageRows s) :
    ((pageUpdates s).any fun u => u.id == r.id) = true := by
  obtain ⟨u, hu, hid⟩ :=
    @stageRow_of_isSome ⟨r.id, r.size_in_bytes⟩ (mem_pageRows_isSome h)
  refine List.any_eq_true.mpr ⟨u, ?_, by simp [hid]⟩
  exact List.mem_filterMap.mpr ⟨⟨r.id, r.size_in_bytes⟩,
    List.mem_map_of_mem _ h, hu⟩

theorem countMatching_page_step (s : Store) :
    countMatching (applyFilePathBatch s (pageUpdates s)) + (pageRows s).length ≤
      countMatching s := by
  rw [countMatching_applyBatch]
  have hsplit := countP_split (fun r : FilePathRow => r.size_in_bytes.isSome)
    (fun r => (pageUpdates s).any fun u => u.id == r.id) s.file_paths
  have hge : (pageRows s).length ≤ s.file_paths.countP
      (fun r => r.size_in_bytes.isSome && ((pageUpdates s).any fun u => u.id == r.id)) := by
    have hall : (pageRows s).countP
        (fun r => r.size_in_bytes.isSome && ((pageUpdates s).any fun u => u.id == r.id)) =
        (pageRows s).length := by
      apply List.countP_eq_length.mpr
      intro r hr
      simp [mem_pageRows_isSome hr, pageUpdates_covers hr]
    calc (pageRows s).length
        = _ := hall.symm
      _ ≤ _ := (pageRows_sublist s).countP_le _
  have hcm : countMatching s = s.file_paths.countP fun r => r.size_in_bytes.isSome := rfl
  omega

theorem pageOf_empty_iff (s : Store) :
    (pageOf s).isEmpty = true ↔ countMatching s = 0 := by
  rw [List.isEmpty_iff]
  constructor
  · intro h
    have hlen : (pageRows s).length = 0 := by
      have := congrArg List.length h
      unfold pageOf at this
      simpa using this
    rw [pageRows_length] at hlen
    omega
  · intro h
    have hlen : (pageRows s).length = 0 := by rw [pageRows_length, h]; rfl
    unfold pageOf
    rw [List.length_eq_zero.mp hlen]
    rfl

theorem backfillAux_spec (fuel : Nat) : ∀ (db : Db) (f0 : Nat),
    countMatching db.store < fuel →
    ((backfillAux fuel db f0).1 ≠ .fuelOut) ∧
    ((∀ k, db.fail k = false) → (backfillAux fuel db f0).1 = .success) ∧
    ((backfillAux fuel db f0).1 = .success →
      countMatching (backfillAux fuel db f0).2.1.store = 0 ∧
      f0 < (backfillAux fuel db f0).2.2 ∧
      (backfillAux fuel db f0).2.2 ≤ f0 + (countMatching db.store + 499) / 500 + 1) := by
  induction fuel with
  | zero => intro db f0 h; omega
  | succ fuel ih =>
    intro db f0 h
    by_cases hf : db.fail db.calls = true
    · simp only [backfillAux, hf, if_true]
      refine ⟨by simp, fun hall => absurd hf (by simp [hall db.calls]), by simp⟩
    · simp only [backfillAux, hf, Bool.false_eq_true, if_false]
      by_cases hp : (pageOf db.store).isEmpty = true
      · simp only [hp, if_true]
        have hc0 : countMatching db.store = 0 := (pageOf_empty_iff _).mp hp
        exact ⟨by simp, fun _ => by simp, fun _ => ⟨hc0, by omega, by omega⟩⟩
      · simp only [hp, Bool.false_eq_true, if_false]
        by_cases hb : db.fail (db.calls + 1) = true
        · simp only [hb, if_true]
          refine ⟨by simp, fun hall => absurd hb (by simp [hall (db.calls + 1)]), by simp⟩
        · simp only [hb, Bool.false_eq_true, if_false]
          have hcpos : 0 < countMatching db.store := by
            rcases Nat.eq_zero_or_pos (countMatching db.store) with h0 | h0
            · exact absurd ((pageOf_empty_iff _).mpr h0) hp
            · exact h0
          have hstep := countMatching_page_step db.store
          have hlen_cases : (pageRows db.store).length = 500 ∨
              (pageRows db.store).length = countMatching db.store := by
            rw [pageRows_length]
            rcases Nat.le_total 500 (countMatching db.store) with hle | hle
            · exact Or.inl (min_eq_left hle)
            · exact Or.inr (min_eq_right hle)
          have hlt :
              countMatching (applyFilePathBatch db.store (pageUpdates db.store)) < fuel := by
            rcases hlen_cases with h5 | h5 <;> omega
          have hrec := ih
            ⟨applyFilePathBatch db.store (pageUpdates db.store), db.fail, db.calls + 1 + 1⟩
            (f0 + 1) hlt
          have harg :
              backfillAux fuel
                ⟨applyFilePathBatch db.store ((pageOf db.store).filterMap stageRow),
                  db.fail, db.calls + 1 + 1⟩ (f0 + 1) =
              backfillAux fuel
                ⟨applyFilePathBatch db.store (pageUpdates db.store), db.fail,
                  db.calls + 1 + 1⟩ (f0 + 1) := rfl
          rw [harg]
          refine ⟨hrec.1, fun hall => hrec.2.1 fun k => hall k, fun hs => ?_⟩
          obtain ⟨h0, hlb, hub⟩ := hrec.2.2 hs
          have hub2 :
              (backfillAux fuel
                ⟨applyFilePathBatch db.store (pageUpdates db.store), db.fail,
                  db.calls + 1 + 1⟩ (f0 + 1)).2.2 ≤
              (f0 + 1) +
                (countMatching (applyFilePathBatch db.store (pageUpdates db.store)) + 499) / 500
                + 1 := hub
          refine ⟨h0, by omega, ?_⟩
          rcases hlen_cases with h5 | h5 <;> omega

/-- Claim C1 (amended): with an all-success store, `migrate 5` on a table
with `R` non-null-size rows terminates successfully with zero rows whose
`size_in_bytes` is non-null, performing at most `⌈R/500⌉ + 1` fetch
iterations (one more than the claim's `⌈R/500⌉`: the final iteration fetches
the empty page that ends the loop), each page holding at most 500 rows. -/
theorem c1_backfill_bound (config : JsonMap) (ctx : Ctx) (db : Db)
    (hs : ∀ k, db.fail k = false) :
    (migrate 5 config ctx db).outcome = .success ∧
    countMatching (migrate 5 config ctx db).db.store = 0 ∧
    0 < (migrate 5 config ctx db).fetches ∧
    (migrate 5 config ctx db).fetches ≤ (countMatching db.store + 499) / 500 + 1 ∧
    (∀ s : Store, (pageOf s).length ≤ 500) := by
  have hspec := backfillAux_spec (countMatching db.store + 1) db 0 (by omega)
  have hsucc : (backfill db).1 = .success := hspec.2.1 hs
  obtain ⟨h0, hlb, hub⟩ := hspec.2.2 hsucc
  have hout : migrate 5 config ctx db =
      ⟨(backfill db).1, config, (backfill db).2.1, (backfill db).2.2⟩ := rfl
  have hub2 : (backfill db).2.2 ≤ 0 + (countMatching db.store + 499) / 500 + 1 := hub
  refine ⟨by rw [hout]; exact hsucc, by rw [hout]; exact h0,
    by rw [hout]; exact hlb, ?_, ?_⟩
  · rw [hout]
    show (backfill db).2.2 ≤ (countMatching db.store + 499) / 500 + 1
    omega
  intro s
  have hlen : (pageOf s).length = (pageRows s).length := by
    unfold pageOf
    rw [List.length_map]
  rw [hlen, pageRows_length]
  exact min_le_left _ _

theorem c1_witness :
    db0.fail 0 = false ∧
    (migrate 5 [] ctx0 db0).outcome = .success ∧
    countMatching (migrate 5 [] ctx0 db0).db.store = 0 ∧
    (migrate 5 [] ctx0 db0).fetches ≤ (countMatching db0.store + 499) / 500 + 1 :=
  ⟨rfl, (c1_backfill_bound [] ctx0 db0 fun _ => rfl).1,
    (c1_backfill_bound [] ctx0 db0 fun _ => rfl).2.1,
    (c1_backfill_bound [] ctx0 db0 fun _ => rfl).2.2.2.1⟩

/-- Claim C1 counterexample: a table with exactly `R = 1` legacy row makes
`migrate 5` perform 2 fetch iterations, exceeding the claimed bound
`⌈1/500⌉ = 1` — the loop always needs one extra fetch to observe the empty
page and stop. -/
theorem c1_counterexample :
    countMatching dbOneRow.store = 1 ∧
    (countMatching dbOneRow.store + 499) / 500 = 1 ∧
    (migrate 5 [] ctx0 dbOneRow).fetches = 2 ∧
    ¬ ((migrate 5 [] ctx0 dbOneRow).fetches ≤
        (countMatching dbOneRow.store + 499) / 500) := by
  decide

/-- Claim C3: a page holding one row with legacy size `"1024"` and one with
`"abc"` stages an update for both — the first with the 8-byte big-endian
encoding of 1024, the second (unparseable, logged) with null — and the batch
clears `size_in_bytes` on both, so afterwards no row matches the fetch
predicate and the next page is empty. -/
theorem c3_mixed_page :
    parseU64 "1024" = some 1024 ∧
    parseU64 "abc" = none ∧
    beBytes 8 1024 = [0, 0, 0, 0, 0, 0, 4, 0] ∧
    pageUpdates dbMixed.store =
      [⟨1, some [0, 0, 0, 0, 0, 0, 4, 0]⟩, ⟨2, none⟩] ∧
    (migrate 5 [] ctx0 dbMixed).outcome = .success ∧
    (migrate 5 [] ctx0 dbMixed).db.store.file_paths =
      [⟨1, none, some [0, 0, 0, 0, 0, 0, 4, 0]⟩, ⟨2, none, none⟩] ∧
    countMatching (migrate 5 [] ctx0 dbMixed).db.store = 0 ∧
    pageOf (migrate 5 [] ctx0 dbMixed).db.store = [] := by
  decide

theorem map_if_noop {α : Type} (l : List α) (p : α → Prop) [DecidablePred p]
    (f : α → α) (h : ∀ x ∈ l, ¬ p x) :
    (l.map fun x => if p x then f x else x) = l := by
  induction l with
  | nil => rfl
  | cons x xs ih =>
    simp only [List.map_cons, if_neg (h x (List.mem_cons_self x xs)),
      ih fun y hy => h y (List.mem_cons_of_mem _ hy)]

theorem updateManyRuleName_noop (s : Store) (nm : String) (pid : List Nat)
    (h : ∀ r ∈ s.indexer_rules, ¬ r.name = some nm) :
    updateManyRuleName s nm pid = s := by
  unfold updateManyRuleName
  rw [map_if_noop s.indexer_rules (fun r => r.name = some nm) _ h]

theorem applyRuleBatch_noop (s : Store) (stmts : List (String × List Nat))
    (h : ∀ r ∈ s.indexer_rules, ∀ p ∈ stmts, ¬ r.name = some p.1) :
    applyRuleBatch s stmts = s := by
  induction stmts with
  | nil => rfl
  | cons p ps ih =>
    show applyRuleBatch (updateManyRuleName s p.1 p.2) ps = s
    rw [updateManyRuleName_noop s p.1 p.2
      fun r hr => h r hr p (List.mem_cons_self p ps)]
    exact ih fun r hr q hq => h r hr q (List.mem_cons_of_mem _ hq)

/-- Claim C8: a document `{version: 0}` driven through versions 1 and 2 (the
driver run is modelled from the spec) ends as `{version: 2, identity: <32
bytes>}` with the store left unmodified: the version-1 rule-rename batch is a
no-op when no rule row bears any of the four names, and version 2 inserts
only the freshly generated identity, with no external side effect. -/
theorem c8_document_example (ctx : Ctx) (db : Db)
    (hs : ∀ k, db.fail k = false)
    (hr : ∀ r ∈ db.store.indexer_rules, ∀ nm ∈ v1Rules, ¬ r.name = some nm)
    (hi : ctx.freshIdentity.length = 32) :
    (runMigrations 0 2 [("version", .num 0)] ctx db).outcome = .success ∧
    (runMigrations 0 2 [("version", .num 0)] ctx db).db.store = db.store ∧
    lookupKey (runMigrations 0 2 [("version", .num 0)] ctx db).config "version" =
      some (.num 2) ∧
    lookupKey (runMigrations 0 2 [("version", .num 0)] ctx db).config "identity" =
      some (identityValue ctx) ∧
    (ctx.freshIdentity.map fun b => JValue.num (Int.ofNat b)).length = 32 ∧
    (∀ k, k ≠ "version" → k ≠ "identity" →
      lookupKey (runMigrations 0 2 [("version", .num 0)] ctx db).config k = none) := by
  have hnoop : applyRuleBatch db.store v1Statements = db.store := by
    apply applyRuleBatch_noop
    intro r hrr p hp
    have hmem : ∀ q ∈ v1Statements, q.1 ∈ v1Rules := by decide
    exact hr r hrr p.1 (hmem p hp)
  have e1 : migrate 1 [("version", JValue.num 0)] ctx db =
      ⟨.success, [("version", .num 0)], ⟨db.store, db.fail, db.calls + 1⟩, 0⟩ := by
    simp [migrate, hs db.calls, hnoop]
  have hrange : List.range' 1 2 = [1, 2] := rfl
  have e2 : migrateSteps [1, 2] [("version", JValue.num 0)] ctx db =
      ⟨.success, insertKey [("version", .num 0)] "identity" (identityValue ctx),
        ⟨db.store, db.fail, db.calls + 1⟩, 0⟩ := by
    simp only [migrateSteps]
    rw [e1]
    rfl
  have erun : runMigrations 0 2 [("version", JValue.num 0)] ctx db =
      ⟨.success,
        insertKey (insertKey [("version", .num 0)] "identity" (identityValue ctx))
          "version" (.num 2),
        ⟨db.store, db.fail, db.calls + 1⟩, 0⟩ := by
    simp only [runMigrations, hrange, e2]
    rfl
  rw [erun]
  refine ⟨rfl, rfl, lookupKey_insertKey_self _ _ _, ?_, by simp [hi], ?_⟩
  · rw [lookupKey_insertKey_ne _ _ _ _ (by decide), lookupKey_insertKey_self]
  · intro k hk1 hk2
    rw [lookupKey_insertKey_ne _ _ _ _ (Ne.symm hk1),
      lookupKey_insertKey_ne _ _ _ _ (Ne.symm hk2)]
    simp [lookupKey, Ne.symm hk1]

theorem c8_witness :
    ctx0.freshIdentity.length = 32 ∧
    (runMigrations 0 2 [("version", .num 0)] ctx0 dbEmpty).outcome = .success ∧
    (runMigrations 0 2 [("version", .num 0)] ctx0 dbEmpty).db.store = dbEmpty.store ∧
    lookupKey (runMigrations 0 2 [("version", .num 0)] ctx0 dbEmpty).config "version" =
      some (.num 2) :=
  ⟨rfl, (c8_document_example ctx0 dbEmpty (fun _ => rfl) (fun _ hr => nomatch hr) rfl).1,
    (c8_document_example ctx0 dbEmpty (fun _ => rfl) (fun _ hr => nomatch hr) rfl).2.1,
    (c8_document_example ctx0 dbEmpty (fun _ => rfl) (fun _ hr => nomatch hr) rfl).2.2.1⟩

end Spacedrive
